import Mathlib

/-!
Shallow embedding of drivers/leds/leds-pwm.c (PWM LED driver).

The numeric core (brightness to duty-cycle conversion in `led_pwm_set`,
channel apply in `__led_element_pwm_set`) is translated at C precision:
the 64-bit unsigned intermediate arithmetic is Nat with an explicit
modulus 2^64, and the store into the signed 32-bit `duty` field of
`struct led_element_pwm` is the two complement wrap performed by the
kernel supported compilers.  External collaborators (the PWM channel
provider, the color-scaling helper, the LED class registration core,
device-managed resources) are modelled at the level the specification
describes them, as oracles supplied to the driver functions.
-/

/-- 2^32, the modulus of the C type unsigned int. -/
def U32 : Nat := 4294967296

/-- 2^64, the modulus of the C type unsigned long long. -/
def U64 : Nat := 18446744073709551616

/-- 2^31, one past the largest value representable in the C type int. -/
def I32TOP : Nat := 2147483648

/-- Conversion of an unsigned value to the C type int, as performed by the
kernel supported compilers (reduction modulo 2^32, reinterpreted in two
complement).  This models the assignment `elem_pwm->duty = duty` where
`duty` is unsigned long long and the field is int. -/
def toInt32 (n : Nat) : Int :=
  let m := n % U32
  if m < I32TOP then (m : Int) else (m : Int) - (U32 : Int)

/-- Linux error number EINVAL. -/
def EINVAL : Int := 22

/-- Linux error number EPROBE_DEFER. -/
def EPROBE_DEFER : Int := 517

/-- One color channel of the LED class device: `struct led_color_element`
(declared in the LED class header, outside this driver).  The driver reads
`raw_value` and `max_value` in `led_pwm_set` and writes `value` and
`max_value` in `led_pwm_add_single`. -/
structure led_color_element where
  name : String
  value : Nat
  raw_value : Nat
  max_value : Nat
deriving DecidableEq, Repr

/-- State of one PWM hardware channel as seen through the provider
interface configure / enable / disable (spec section 6): the last
configured pair and whether output generation is enabled. -/
structure PwmChanState where
  duty : Int
  period : Nat
  enabled : Bool
deriving DecidableEq, Repr

/-- Translation of `struct led_element_pwm`.  The C struct holds a pointer
to the exclusively owned `struct pwm_device`; the embedding stores the
owned channel state inline.  Field types follow the C declaration:
`element_index` is int, `active_low` and `period` are unsigned int, and
`duty` is int. -/
structure led_element_pwm where
  element_index : Int
  pwm : PwmChanState
  active_low : Nat
  period : Nat
  duty : Int
deriving DecidableEq, Repr

/-- Fault injection oracle for the PWM channel provider: the return codes
of pwm_config and pwm_enable for the channel of element `i`.  The driver
code discards these return values (both call sites ignore them), so they
only show up in the emitted event trace. -/
structure PwmFaults where
  configErr : Nat → Int → Nat → Int
  enableErr : Nat → Int

/-- Observable events of one brightness-set invocation: the call to the
color-scaling collaborator and the provider calls made for the channel of
element `i` (with the provider return code where the call has one). -/
inductive Ev where
  | scale (brightness : Nat)
  | config (i : Nat) (duty : Int) (period : Nat) (res : Int)
  | enable (i : Nat) (res : Int)
  | disable (i : Nat)
deriving DecidableEq, Repr

/-- Index of the element whose channel an event touches (none for the
scaling call). -/
def evTag : Ev → Option Nat
  | Ev.scale _ => none
  | Ev.config i _ _ _ => some i
  | Ev.enable i _ => some i
  | Ev.disable i => some i

/-- Index tag of configure events only. -/
def evCfgTag : Ev → Option Nat
  | Ev.config i _ _ _ => some i
  | _ => none

/-- Recognizer for the color-scaling event. -/
def isScale : Ev → Bool
  | Ev.scale _ => true
  | _ => false

/-- Modelled from the spec: `led_scale_color_elements` (LED class core,
outside this driver) updates the raw value of every color channel in
place, given the target overall brightness; the per-channel scaling
policy is the oracle `f`. -/
def led_scale_color_elements (f : Nat → led_color_element → Nat)
    (brightness : Nat) (ces : List led_color_element) : List led_color_element :=
  ces.map (fun ce => { ce with raw_value := f brightness ce })

/-- Unsigned 64-bit duty of lines 83-86 of leds-pwm.c:
`duty = elem_pwm->period; duty *= raw_value; do_div(duty, max_value);`.
The product is taken modulo 2^64 (unsigned long long arithmetic) and the
division truncates.  The caller must not pass `max_value = 0`: that is a
division by zero in the C code (see `processElement`). -/
def dutyUnsigned (period raw_value max_value : Nat) : Nat :=
  ((period * raw_value) % U64) / max_value

/-- Duty of lines 83-89 of leds-pwm.c, including the active-low
adjustment `duty = elem_pwm->period - duty`, performed in unsigned
long long arithmetic (hence the wrap-around form of the subtraction).
`active_low` is the unsigned int field, tested for non-zero as in C. -/
def computeDuty (period raw_value max_value active_low : Nat) : Nat :=
  let d := dutyUnsigned period raw_value max_value
  if active_low ≠ 0 then (period + U64 - d) % U64 else d

/-- Translation of `__led_element_pwm_set` (lines 46-56): read the stored
duty, call pwm_config with the pair (duty, period), then pwm_disable when
the duty is zero and pwm_enable otherwise.  `i` identifies the channel
the element owns (the pwm_device pointer of the C struct).  The provider
return codes are discarded, exactly as in the C code; they are recorded
in the event list only. -/
def __led_element_pwm_set (flt : PwmFaults) (i : Nat) (e : led_element_pwm) :
    led_element_pwm × List Ev :=
  let new_duty := e.duty
  let evC := Ev.config i new_duty e.period (flt.configErr i new_duty e.period)
  if new_duty = 0 then
    ({ e with pwm := { duty := new_duty, period := e.period, enabled := false } },
      [evC, Ev.disable i])
  else
    ({ e with pwm := { duty := new_duty, period := e.period, enabled := true } },
      [evC, Ev.enable i (flt.enableErr i)])

/-- Body of the loop of `led_pwm_set` (lines 70-94) for one element:
skip the element when `element_index < 0`; otherwise look up its color
element, compute the duty, store it into the int field `duty` and apply
the element.  `none` marks C undefined behaviour: an out-of-bounds
color-element index, or `do_div` with a zero divisor. -/
def processElement (flt : PwmFaults) (ces : List led_color_element)
    (i : Nat) (e : led_element_pwm) : Option (led_element_pwm × List Ev) :=
  if e.element_index < 0 then some (e, [])
  else
    match ces.get? e.element_index.toNat with
    | none => none
    | some ce =>
      if ce.max_value = 0 then none
      else
        let e1 := { e with duty := toInt32 (computeDuty e.period ce.raw_value ce.max_value e.active_low) }
        some (__led_element_pwm_set flt i e1)

/-- The element loop of `led_pwm_set`, processing the elements in
construction order starting at index `i`. -/
def led_pwm_set_loop (flt : PwmFaults) (ces : List led_color_element) :
    List led_element_pwm → Nat → Option (List led_element_pwm × List Ev)
  | [], _ => some ([], [])
  | e :: rest, i =>
    match processElement flt ces i e with
    | none => none
    | some (e1, evs) =>
      match led_pwm_set_loop flt ces rest (i + 1) with
      | none => none
      | some (rest1, evs2) => some (e1 :: rest1, evs ++ evs2)

/-- Relevant fields of `struct led_classdev` for this driver. -/
structure led_classdev_model where
  name : String
  default_trigger : String
  brightness : Nat
  max_brightness : Nat
  color_elements : List led_color_element
deriving DecidableEq, Repr

/-- Result of one `led_pwm_set` invocation: the class device (with the
scaled color elements written back), the updated elements with their
channel states, the event trace and the C return value. -/
structure SetOut where
  cdev : led_classdev_model
  elements : List led_element_pwm
  trace : List Ev
  ret : Int
deriving DecidableEq, Repr

/-- Translation of `led_pwm_set` (lines 58-97): call the color-scaling
collaborator once, then run the element loop, and return 0.  `none`
marks a run that hits C undefined behaviour inside the loop. -/
def led_pwm_set (f : Nat → led_color_element → Nat) (flt : PwmFaults)
    (cdev : led_classdev_model) (elems : List led_element_pwm)
    (brightness : Nat) : Option SetOut :=
  match led_pwm_set_loop flt (led_scale_color_elements f brightness cdev.color_elements) elems 0 with
  | none => none
  | some (elems1, evs) =>
    some { cdev := { cdev with color_elements := led_scale_color_elements f brightness cdev.color_elements },
           elements := elems1,
           trace := Ev.scale brightness :: evs,
           ret := 0 }

/-- Result of acquiring a PWM channel from the provider: the period the
hardware reports through pwm_get_args, and the channel state at
acquisition time. -/
structure PwmChan where
  args_period : Nat
  init : PwmChanState
deriving DecidableEq, Repr

/-- Translation of `struct led_pwm` (the static configuration of one
LED): name, default trigger, polarity, maximum brightness and the
fallback period supplied by the caller. -/
structure led_pwm_cfg where
  name : String
  default_trigger : String
  active_low : Nat
  max_brightness : Nat
  pwm_period_ns : Nat
deriving DecidableEq, Repr

/-- Configuration of one color element of a multi-color LED (one
`element-<index>` child node): its polarity, the outcome of
`led_color_element_setup_of` (modelled from the spec: the LED class
helper, outside this driver, populates the color element of index `j`
from the description, or fails), and the outcome of acquiring its PWM
channel. -/
structure MultiElemCfg where
  active_low : Bool
  setup : Except Int led_color_element
  acquire : Except Int PwmChan
deriving Repr

/-- Environment oracles for device construction: per-LED PWM channel
acquisition (devm_pwm_get), per-LED registration outcome
(led_classdev_register), the color-scaling policy and the provider
fault oracle used by the brightness-set calls. -/
structure AddEnv where
  acquire : Nat → Except Int PwmChan
  register : Nat → Int
  scaleF : Nat → led_color_element → Nat
  flt : PwmFaults

/-- One constructed LED (`struct led_pwm_data`), tagged with its index in
the configuration list (the identity the registration collaborator sees). -/
structure LedData where
  idx : Nat
  cdev : led_classdev_model
  elements : List led_element_pwm
deriving DecidableEq, Repr

/-- Observable construction events: successful channel acquisition for
element `elem` of LED `led`, the two dev_err log messages of the driver,
and registration / unregistration of a LED with the LED class core. -/
inductive PEv where
  | acquired (led elem : Nat)
  | errlogPwm (led : Nat)
  | errlogReg (led : Nat)
  | registered (led : Nat)
  | unregistered (led : Nat)
deriving DecidableEq, Repr

/-- World state threaded through construction: the committed LEDs of
`struct led_pwm_priv` (num_leds is the list length), the set of LEDs
currently registered with the LED class core, the device-managed channel
resources currently held (identified by LED and element index), and the
event trace. -/
structure World where
  priv : List LedData
  registered : List Nat
  devres : List (Nat × Nat)
  trace : List PEv
deriving DecidableEq, Repr

/-- The empty world of a fresh probe. -/
def emptyWorld : World := { priv := [], registered := [], devres := [], trace := [] }

/-- Translation of `led_pwm_add_single` (lines 116-192) for LED `i`:
build the one color element named "single" and the one PWM element with
`element_index = 0`, acquire the channel (logging an error unless the
failure is EPROBE_DEFER), derive the period from the hardware-reported
period with the caller-supplied fallback (lines 170-174), register the
class device, and on success commit the LED, set the color element value
and max_value to max_brightness and drive the device once at its initial
brightness (LED_OFF). -/
def led_pwm_add_single (env : AddEnv) (i : Nat) (cfg : led_pwm_cfg)
    (w : World) : Option (Int × World) :=
  match env.acquire i with
  | Except.error ret =>
    if ret = -EPROBE_DEFER then some (ret, w)
    else some (ret, { w with trace := w.trace ++ [PEv.errlogPwm i] })
  | Except.ok ch =>
    let w1 : World := { w with devres := w.devres ++ [(i, 0)],
                               trace := w.trace ++ [PEv.acquired i 0] }
    let period0 := ch.args_period
    let period := if period0 = 0 ∧ 0 < cfg.pwm_period_ns then cfg.pwm_period_ns else period0
    let elem : led_element_pwm :=
      { element_index := 0, pwm := ch.init, active_low := cfg.active_low,
        period := period, duty := 0 }
    let cdev : led_classdev_model :=
      { name := cfg.name, default_trigger := cfg.default_trigger,
        brightness := 0, max_brightness := cfg.max_brightness,
        color_elements := [{ name := "single", value := 0, raw_value := 0, max_value := 0 }] }
    let ret := env.register i
    if ret = 0 then
      let cdev1 := { cdev with color_elements :=
        [{ name := "single", value := cfg.max_brightness, raw_value := 0,
           max_value := cfg.max_brightness }] }
      match led_pwm_set env.scaleF env.flt cdev1 [elem] cdev.brightness with
      | none => none
      | some out =>
        some (0, { w1 with
          priv := w1.priv ++ [{ idx := i, cdev := out.cdev, elements := out.elements }],
          registered := w1.registered ++ [i],
          trace := w1.trace ++ [PEv.registered i] })
    else
      some (ret, { w1 with trace := w1.trace ++ [PEv.errlogReg i] })

/-- The element loop of `led_pwm_add_multi` (lines 220-261): for each
`element-` child in order, run the color-element setup helper (returning
its failure unchanged), acquire the PWM channel of the element (logging
an error unless the failure is EPROBE_DEFER), and build the PWM element
with `element_index = j` and the period taken purely from the
hardware-reported period. -/
def led_pwm_add_multi_loop (i : Nat) :
    List MultiElemCfg → Nat → World →
    (Int × World) ⊕ (List led_color_element × List led_element_pwm × World)
  | [], _, w => Sum.inr ([], [], w)
  | d :: rest, j, w =>
    match d.setup with
    | Except.error ret => Sum.inl (ret, w)
    | Except.ok ce =>
      match d.acquire with
      | Except.error ret =>
        if ret = -EPROBE_DEFER then Sum.inl (ret, w)
        else Sum.inl (ret, { w with trace := w.trace ++ [PEv.errlogPwm i] })
      | Except.ok ch =>
        let elem : led_element_pwm :=
          { element_index := (j : Int), pwm := ch.init,
            active_low := if d.active_low then 1 else 0,
            period := ch.args_period, duty := 0 }
        let w1 : World := { w with devres := w.devres ++ [(i, j)],
                                   trace := w.trace ++ [PEv.acquired i j] }
        match led_pwm_add_multi_loop i rest (j + 1) w1 with
        | Sum.inl r => Sum.inl r
        | Sum.inr (ces, elems, w2) => Sum.inr (ce :: ces, elem :: elems, w2)

/-- Translation of `led_pwm_add_multi` (lines 194-275) for LED `i`: build
the color elements and PWM elements from the per-element configurations,
register the class device, and on success commit the LED and drive it
once at its initial brightness (LED_OFF). -/
def led_pwm_add_multi (env : AddEnv) (i : Nat) (cfg : led_pwm_cfg)
    (descs : List MultiElemCfg) (w : World) : Option (Int × World) :=
  match led_pwm_add_multi_loop i descs 0 w with
  | Sum.inl (ret, w1) => some (ret, w1)
  | Sum.inr (ces, elems, w1) =>
    let cdev : led_classdev_model :=
      { name := cfg.name, default_trigger := cfg.default_trigger,
        brightness := 0, max_brightness := cfg.max_brightness,
        color_elements := ces }
    let ret := env.register i
    if ret = 0 then
      match led_pwm_set env.scaleF env.flt cdev elems cdev.brightness with
      | none => none
      | some out =>
        some (0, { w1 with
          priv := w1.priv ++ [{ idx := i, cdev := out.cdev, elements := out.elements }],
          registered := w1.registered ++ [i],
          trace := w1.trace ++ [PEv.registered i] })
    else
      some (ret, { w1 with trace := w1.trace ++ [PEv.errlogReg i] })

/-- Translation of `led_pwm_cleanup` (lines 110-114): unregister every
committed LED, last constructed first (`while (priv->num_leds--)`). -/
def led_pwm_cleanup (w : World) : World :=
  w.priv.reverse.foldl
    (fun acc ld =>
      { acc with registered := acc.registered.erase ld.idx,
                 trace := acc.trace ++ [PEv.unregistered ld.idx] })
    { w with priv := [] }

/-- The platform-data loop of `led_pwm_probe` (lines 346-351): add each
configured LED in order, stopping at the first failure. -/
def led_pwm_probe_loop (env : AddEnv) :
    List led_pwm_cfg → Nat → World → Option (Int × World)
  | [], _, w => some (0, w)
  | c :: rest, i, w =>
    match led_pwm_add_single env i c w with
    | none => none
    | some (ret, w1) =>
      if ret = 0 then led_pwm_probe_loop env rest (i + 1) w1
      else some (ret, w1)

/-- Translation of `led_pwm_probe` (lines 325-364) on the platform-data
path: reject an empty configuration with -EINVAL, construct the LEDs in
order, and on failure run the cleanup and return the failure unchanged. -/
def led_pwm_probe (env : AddEnv) (cfgs : List led_pwm_cfg) : Option (Int × World) :=
  if cfgs.length = 0 then some (-EINVAL, emptyWorld)
  else
    match led_pwm_probe_loop env cfgs 0 emptyWorld with
    | none => none
    | some (ret, w) =>
      if ret = 0 then some (0, w)
      else some (ret, led_pwm_cleanup w)

/-- Modelled from the spec: device-managed resources (the devm acquired
PWM channels) are released by the host driver core when probe returns a
failure; on success they stay held for the lifetime of the device.  This
wraps `led_pwm_probe` with that collaborator behaviour. -/
def led_pwm_probe_hosted (env : AddEnv) (cfgs : List led_pwm_cfg) :
    Option (Int × World) :=
  match led_pwm_probe env cfgs with
  | none => none
  | some (ret, w) =>
    if ret = 0 then some (ret, w) else some (ret, { w with devres := [] })

/-! ## Arithmetic helper lemmas -/

theorem U32_mul_U32 : U32 * U32 = U64 := by norm_num [U32, U64]

theorem mul_lt_U64 {p v : Nat} (hp : p < U32) (hv : v < U32) : p * v < U64 := by
  calc p * v ≤ p * (U32 - 1) := Nat.mul_le_mul_left p (by omega)
    _ < U32 * U32 := by
        have h1 : p * (U32 - 1) < U32 * U32 := by
          have := Nat.mul_lt_mul_of_lt_of_le hp (Nat.sub_le U32 1) (by norm_num [U32])
          exact this
        exact h1
    _ = U64 := U32_mul_U32

theorem dutyUnsigned_eq {p v : Nat} (m : Nat) (hp : p < U32) (hv : v < U32) :
    dutyUnsigned p v m = p * v / m := by
  unfold dutyUnsigned
  rw [Nat.mod_eq_of_lt (mul_lt_U64 hp hv)]

theorem dutyUnsigned_le_period {p v m : Nat} (hm : 0 < m) (hv : v ≤ m)
    (hp : p < U32) (hmU : m < U32) : dutyUnsigned p v m ≤ p := by
  rw [dutyUnsigned_eq m hp (lt_of_le_of_lt hv hmU)]
  calc p * v / m ≤ p * m / m := Nat.div_le_div_right (Nat.mul_le_mul_left p hv)
    _ = p := Nat.mul_div_cancel p hm

theorem computeDuty_active_high (p v m : Nat) :
    computeDuty p v m 0 = dutyUnsigned p v m := by
  simp [computeDuty]

theorem computeDuty_active_low {p v m al : Nat} (hal : al ≠ 0)
    (hd : dutyUnsigned p v m ≤ p) (hp : p < U32) :
    computeDuty p v m al = p - dutyUnsigned p v m := by
  unfold computeDuty
  rw [if_pos hal]
  have hU : U32 < U64 := by norm_num [U32, U64]
  have hdU : dutyUnsigned p v m < U64 := lt_of_le_of_lt hd (lt_trans hp hU)
  have h1 : p + U64 - dutyUnsigned p v m = (p - dutyUnsigned p v m) + U64 := by omega
  rw [h1, Nat.add_mod_right, Nat.mod_eq_of_lt (by omega)]

theorem computeDuty_le_period {p v m : Nat} (al : Nat) (hm : 0 < m) (hv : v ≤ m)
    (hp : p < U32) (hmU : m < U32) : computeDuty p v m al ≤ p := by
  have hd := dutyUnsigned_le_period hm hv hp hmU
  by_cases hal : al = 0
  · rw [hal, computeDuty_active_high]; exact hd
  · rw [computeDuty_active_low hal hd hp]; omega

theorem toInt32_small {n : Nat} (h : n < I32TOP) : toInt32 n = (n : Int) := by
  unfold toInt32
  have hU : n < U32 := lt_trans h (by norm_num [I32TOP, U32])
  rw [Nat.mod_eq_of_lt hU]
  simp only [if_pos h]

/-! ## Concrete oracles shared by witnesses and counterexamples -/

/-- Provider fault oracle that reports success everywhere. -/
def flt0 : PwmFaults := { configErr := fun _ _ _ => 0, enableErr := fun _ => 0 }

/-- Color-scaling oracle that keeps every raw value unchanged. -/
def fId : Nat → led_color_element → Nat := fun _ ce => ce.raw_value

/-! ## C10: the duty computation is carried out in 64-bit arithmetic -/

/-- C10: for every period and raw value representable as 32-bit unsigned
integers and every maxValue > 0, the 64-bit product `duty *= raw_value`
does not wrap around, and the computed unsigned duty exactly equals the
mathematical floor(period * v / maxValue). -/
theorem C10_no_overflow (p v m : Nat) (hp : p < U32) (hv : v < U32) (_hm : 0 < m) :
    (p * v) % U64 = p * v ∧ dutyUnsigned p v m = p * v / m :=
  ⟨Nat.mod_eq_of_lt (mul_lt_U64 hp hv), dutyUnsigned_eq m hp hv⟩

theorem C10_no_overflow_witness :
    ((4294967295 : Nat) < U32 ∧ (4294967295 : Nat) < U32 ∧ (0 : Nat) < 255) ∧
    (4294967295 * 4294967295) % U64 = 4294967295 * 4294967295 ∧
    dutyUnsigned 4294967295 4294967295 255 = 4294967295 * 4294967295 / 255 :=
  ⟨⟨by norm_num [U32], by norm_num [U32], by norm_num⟩,
    C10_no_overflow 4294967295 4294967295 255 (by norm_num [U32]) (by norm_num [U32]) (by norm_num)⟩

/-! ## C9: monotonicity of the computed duty in the raw value -/

/-- C9: for a fixed period, maxValue > 0 and polarity flag, the duty
computed by lines 83-89 is monotone in the raw value over
0 <= v <= maxValue: non-decreasing when active_low is 0 and
non-increasing when active_low is non-zero. -/
theorem C9_monotone (p m v1 v2 al : Nat) (hm : 0 < m) (h2 : v2 ≤ m)
    (h12 : v1 ≤ v2) (hp : p < U32) (hmU : m < U32) :
    (al = 0 → computeDuty p v1 m al ≤ computeDuty p v2 m al) ∧
    (al ≠ 0 → computeDuty p v2 m al ≤ computeDuty p v1 m al) := by
  have h1 : v1 ≤ m := le_trans h12 h2
  have hv1U : v1 < U32 := lt_of_le_of_lt h1 hmU
  have hv2U : v2 < U32 := lt_of_le_of_lt h2 hmU
  have hmono : dutyUnsigned p v1 m ≤ dutyUnsigned p v2 m := by
    rw [dutyUnsigned_eq m hp hv1U, dutyUnsigned_eq m hp hv2U]
    exact Nat.div_le_div_right (Nat.mul_le_mul_left p h12)
  constructor
  · intro hal
    rw [hal, computeDuty_active_high, computeDuty_active_high]
    exact hmono
  · intro hal
    rw [computeDuty_active_low hal (dutyUnsigned_le_period hm h1 hp hmU) hp,
        computeDuty_active_low hal (dutyUnsigned_le_period hm h2 hp hmU) hp]
    omega

theorem C9_monotone_witness :
    (computeDuty 1000 100 255 0 ≤ computeDuty 1000 200 255 0) ∧
    (computeDuty 1000 200 255 1 ≤ computeDuty 1000 100 255 1) :=
  ⟨(C9_monotone 1000 255 100 200 0 (by norm_num) (by norm_num) (by norm_num)
      (by norm_num [U32]) (by norm_num [U32])).1 rfl,
   (C9_monotone 1000 255 100 200 1 (by norm_num) (by norm_num) (by norm_num)
      (by norm_num [U32]) (by norm_num [U32])).2 (by norm_num)⟩

/-! ## C3: element apply configures first, then enables or disables -/

/-- C3: for every element apply (any provider fault oracle, any prior
channel state, any element satisfying the data-model invariant
0 <= duty), the channel is first configured with the pair
(duty, period) and then disabled exactly when duty = 0 and enabled
exactly when duty > 0. -/
theorem C3_element_apply (flt : PwmFaults) (i : Nat) (e : led_element_pwm)
    (h : 0 ≤ e.duty) :
    ((__led_element_pwm_set flt i e).2 =
      [Ev.config i e.duty e.period (flt.configErr i e.duty e.period),
       if e.duty = 0 then Ev.disable i else Ev.enable i (flt.enableErr i)]) ∧
    ((__led_element_pwm_set flt i e).1.pwm.duty = e.duty) ∧
    ((__led_element_pwm_set flt i e).1.pwm.period = e.period) ∧
    ((__led_element_pwm_set flt i e).1.pwm.enabled = false ↔ e.duty = 0) ∧
    ((__led_element_pwm_set flt i e).1.pwm.enabled = true ↔ 0 < e.duty) := by
  by_cases hd : e.duty = 0
  · simp [__led_element_pwm_set, hd]
  · simp [__led_element_pwm_set, hd]
    omega

/-- An element with a prior enabled channel and duty 0, used to witness
that apply disables regardless of prior state. -/
def elemW3 : led_element_pwm :=
  { element_index := 0, pwm := { duty := 77, period := 5, enabled := true },
    active_low := 0, period := 1000, duty := 0 }

theorem C3_element_apply_witness :
    ((__led_element_pwm_set flt0 0 elemW3).2 =
      [Ev.config 0 elemW3.duty elemW3.period (flt0.configErr 0 elemW3.duty elemW3.period),
       if elemW3.duty = 0 then Ev.disable 0 else Ev.enable 0 (flt0.enableErr 0)]) ∧
    ((__led_element_pwm_set flt0 0 elemW3).1.pwm.enabled = false ↔ elemW3.duty = 0) :=
  ⟨(C3_element_apply flt0 0 elemW3 (by decide)).1,
   (C3_element_apply flt0 0 elemW3 (by decide)).2.2.2.1⟩

/-! ## Inversion lemmas for led_pwm_set -/

theorem led_pwm_set_inv {f : Nat → led_color_element → Nat} {flt : PwmFaults}
    {cdev : led_classdev_model} {elems : List led_element_pwm} {b : Nat} {out : SetOut}
    (h : led_pwm_set f flt cdev elems b = some out) :
    ∃ es1 evs,
      led_pwm_set_loop flt (led_scale_color_elements f b cdev.color_elements) elems 0 =
        some (es1, evs) ∧
      out = { cdev := { cdev with color_elements := led_scale_color_elements f b cdev.color_elements },
              elements := es1, trace := Ev.scale b :: evs, ret := 0 } := by
  unfold led_pwm_set at h
  cases hl : led_pwm_set_loop flt (led_scale_color_elements f b cdev.color_elements) elems 0 with
  | none => rw [hl] at h; simp at h
  | some p =>
    obtain ⟨es1, evs⟩ := p
    rw [hl] at h
    simp only [Option.some.injEq] at h
    exact ⟨es1, evs, rfl, h.symm⟩

theorem led_pwm_set_loop_get {flt : PwmFaults} {ces : List led_color_element} :
    ∀ (es : List led_element_pwm) (i : Nat) (es1 : List led_element_pwm) (evs : List Ev),
      led_pwm_set_loop flt ces es i = some (es1, evs) →
      ∀ (j : Nat) (e : led_element_pwm), es.get? j = some e →
        ∃ e1 evsj, processElement flt ces (i + j) e = some (e1, evsj) ∧
          es1.get? j = some e1 := by
  intro es
  induction es with
  | nil => intro i es1 evs h j e hj; simp at hj
  | cons a rest ih =>
    intro i es1 evs h j e hj
    unfold led_pwm_set_loop at h
    cases hp : processElement flt ces i a with
    | none => rw [hp] at h; simp at h
    | some p1 =>
      obtain ⟨a1, evsA⟩ := p1
      rw [hp] at h
      cases hr : led_pwm_set_loop flt ces rest (i + 1) with
      | none => rw [hr] at h; simp at h
      | some p2 =>
        obtain ⟨rest1, evs2⟩ := p2
        rw [hr] at h
        simp only [Option.some.injEq, Prod.mk.injEq] at h
        obtain ⟨h1, _h2⟩ := h
        cases j with
        | zero =>
          simp only [List.get?] at hj
          injection hj with hj
          subst hj
          refine ⟨a1, evsA, by simpa using hp, ?_⟩
          rw [← h1]; rfl
        | succ n =>
          simp only [List.get?] at hj
          obtain ⟨e1, evsj, hpe, hget⟩ := ih (i + 1) rest1 evs2 hr n e hj
          refine ⟨e1, evsj, ?_, ?_⟩
          · have hn : i + (n + 1) = (i + 1) + n := by omega
            rw [hn]; exact hpe
          · rw [← h1]; simpa using hget

theorem processElement_some {flt : PwmFaults} {ces : List led_color_element}
    {i : Nat} {e e1 : led_element_pwm} {evs : List Ev}
    (h : processElement flt ces i e = some (e1, evs)) (hidx : ¬ e.element_index < 0) :
    ∃ ce, ces.get? e.element_index.toNat = some ce ∧ ce.max_value ≠ 0 ∧
      e1 = (__led_element_pwm_set flt i
        { e with duty := toInt32 (computeDuty e.period ce.raw_value ce.max_value e.active_low) }).1 ∧
      evs = (__led_element_pwm_set flt i
        { e with duty := toInt32 (computeDuty e.period ce.raw_value ce.max_value e.active_low) }).2 := by
  unfold processElement at h
  rw [if_neg hidx] at h
  cases hce : ces.get? e.element_index.toNat with
  | none => rw [hce] at h; simp at h
  | some ce =>
    simp only [hce] at h
    by_cases hm : ce.max_value = 0
    · rw [if_pos hm] at h; simp at h
    · rw [if_neg hm] at h
      simp only [Option.some.injEq] at h
      exact ⟨ce, rfl, hm, by rw [h], by rw [h]⟩

theorem processElement_skip (flt : PwmFaults) (ces : List led_color_element)
    (i : Nat) {e : led_element_pwm} (hidx : e.element_index < 0) :
    processElement flt ces i e = some (e, []) := by
  unfold processElement
  rw [if_pos hidx]

theorem apply_fields (flt : PwmFaults) (i : Nat) (e : led_element_pwm) :
    ((__led_element_pwm_set flt i e).1.duty = e.duty) ∧
    ((__led_element_pwm_set flt i e).1.period = e.period) ∧
    ((__led_element_pwm_set flt i e).1.element_index = e.element_index) ∧
    ((__led_element_pwm_set flt i e).1.active_low = e.active_low) := by
  by_cases hd : e.duty = 0 <;> simp [__led_element_pwm_set, hd]

/-! ## C1: the duty written to the element -/

/-- C1 (amended): for every element processed during a brightness-set,
given a raw channel value v with 0 <= v <= maxValue, maxValue > 0, and
provided additionally that the element period is at most INT_MAX (so
that the 64-bit duty survives the store into the signed 32-bit `duty`
field), the duty written to the element equals
floor(period * v / maxValue) when active_low is 0 and
period - floor(period * v / maxValue) when active_low is non-zero. -/
theorem C1_duty_formula (f : Nat → led_color_element → Nat) (flt : PwmFaults)
    (cdev : led_classdev_model) (elems : List led_element_pwm) (b : Nat) (out : SetOut)
    (j : Nat) (e : led_element_pwm) (ce : led_color_element)
    (hrun : led_pwm_set f flt cdev elems b = some out)
    (hj : elems.get? j = some e)
    (hidx : ¬ e.element_index < 0)
    (hce : (led_scale_color_elements f b cdev.color_elements).get? e.element_index.toNat = some ce)
    (hv : ce.raw_value ≤ ce.max_value) (hm : 0 < ce.max_value)
    (hmU : ce.max_value < U32) (hp : e.period < I32TOP) :
    ∃ e1, out.elements.get? j = some e1 ∧
      e1.duty = (if e.active_low ≠ 0
        then ((e.period - e.period * ce.raw_value / ce.max_value : Nat) : Int)
        else ((e.period * ce.raw_value / ce.max_value : Nat) : Int)) := by
  obtain ⟨es1, evs, hloop, hout⟩ := led_pwm_set_inv hrun
  obtain ⟨e1, evsj, hpe, hget⟩ := led_pwm_set_loop_get elems 0 es1 evs hloop j e hj
  obtain ⟨ce2, hce2, _hmz, he1, _⟩ := processElement_some hpe hidx
  rw [hce] at hce2
  injection hce2 with hce2
  subst hce2
  have hduty : e1.duty = toInt32 (computeDuty e.period ce.raw_value ce.max_value e.active_low) := by
    rw [he1]
    exact (apply_fields flt (0 + j)
      { e with duty := toInt32 (computeDuty e.period ce.raw_value ce.max_value e.active_low) }).1
  refine ⟨e1, ?_, ?_⟩
  · rw [hout]; exact hget
  · have hvU : ce.raw_value < U32 := lt_of_le_of_lt hv hmU
    have hpU : e.period < U32 := lt_trans hp (by norm_num [I32TOP, U32])
    have hdle : dutyUnsigned e.period ce.raw_value ce.max_value ≤ e.period :=
      dutyUnsigned_le_period hm hv hpU hmU
    have hdeq : dutyUnsigned e.period ce.raw_value ce.max_value =
        e.period * ce.raw_value / ce.max_value := dutyUnsigned_eq ce.max_value hpU hvU
    have hlt : e.period * ce.raw_value / ce.max_value < I32TOP := by
      rw [← hdeq]; omega
    rw [hduty]
    by_cases hal : e.active_low = 0
    · rw [hal, computeDuty_active_high, hdeq, toInt32_small hlt]
      simp
    · rw [computeDuty_active_low hal hdle hpU, hdeq,
        toInt32_small (by omega), if_pos hal]

/-- A well-behaved monochrome device: period 1000, maxValue 255, raw
value 128, active-high. -/
def cdevW : led_classdev_model :=
  { name := "pwmled", default_trigger := "none", brightness := 0, max_brightness := 255,
    color_elements := [{ name := "single", value := 255, raw_value := 128, max_value := 255 }] }

/-- The element of `cdevW`: element_index 0, active-high, period 1000. -/
def elemW : led_element_pwm :=
  { element_index := 0, pwm := { duty := 0, period := 0, enabled := false },
    active_low := 0, period := 1000, duty := 0 }

/-- Output of `led_pwm_set fId flt0 cdevW [elemW] 1`: duty
floor(1000 * 128 / 255) = 501, channel configured and enabled. -/
def outW : SetOut :=
  { cdev := { cdevW with color_elements := [{ name := "single", value := 255, raw_value := 128, max_value := 255 }] },
    elements := [{ element_index := 0, pwm := { duty := 501, period := 1000, enabled := true },
                   active_low := 0, period := 1000, duty := 501 }],
    trace := [Ev.scale 1, Ev.config 0 501 1000 0, Ev.enable 0 0],
    ret := 0 }

theorem C1_duty_formula_witness :
    ∃ e1, outW.elements.get? 0 = some e1 ∧
      e1.duty = (if elemW.active_low ≠ 0
        then ((elemW.period - elemW.period * 128 / 255 : Nat) : Int)
        else ((elemW.period * 128 / 255 : Nat) : Int)) :=
  C1_duty_formula fId flt0 cdevW [elemW] 1 outW 0 elemW
    { name := "single", value := 255, raw_value := 128, max_value := 255 }
    (by decide) (by decide) (by decide) (by decide) (by decide) (by decide)
    (by decide) (by decide)

/-- A device whose element period is 2^31: in range for the unsigned int
period field, out of range for the signed int duty field. -/
def cdevCE : led_classdev_model :=
  { name := "big", default_trigger := "", brightness := 0, max_brightness := 1,
    color_elements := [{ name := "single", value := 1, raw_value := 1, max_value := 1 }] }

/-- The element of `cdevCE`: active-high, period 2^31. -/
def elemCE : led_element_pwm :=
  { element_index := 0, pwm := { duty := 0, period := 0, enabled := false },
    active_low := 0, period := 2147483648, duty := 0 }

theorem C1_duty_formula_cex :
    ((led_pwm_set fId flt0 cdevCE [elemCE] 0).map
        (fun o => (o.elements.get? 0).map led_element_pwm.duty) =
      some (some (-2147483648))) ∧
    ¬ ((-2147483648 : Int) = ((elemCE.period * 1 / 1 : Nat) : Int)) :=
  ⟨by decide, by decide⟩

/-! ## C2: the invariant 0 <= duty <= period after a brightness-set -/

/-- C2 (amended): for every element processed during a brightness-set,
given a raw channel value v with 0 <= v <= maxValue, maxValue > 0, and
provided additionally that the element period is at most INT_MAX, the
duty stored in the element satisfies 0 <= duty <= period, for both
polarities. -/
theorem C2_duty_invariant (f : Nat → led_color_element → Nat) (flt : PwmFaults)
    (cdev : led_classdev_model) (elems : List led_element_pwm) (b : Nat) (out : SetOut)
    (j : Nat) (e : led_element_pwm) (ce : led_color_element)
    (hrun : led_pwm_set f flt cdev elems b = some out)
    (hj : elems.get? j = some e)
    (hidx : ¬ e.element_index < 0)
    (hce : (led_scale_color_elements f b cdev.color_elements).get? e.element_index.toNat = some ce)
    (hv : ce.raw_value ≤ ce.max_value) (hm : 0 < ce.max_value)
    (hmU : ce.max_value < U32) (hp : e.period < I32TOP) :
    ∃ e1, out.elements.get? j = some e1 ∧ 0 ≤ e1.duty ∧ e1.duty ≤ (e.period : Int) := by
  obtain ⟨es1, evs, hloop, hout⟩ := led_pwm_set_inv hrun
  obtain ⟨e1, evsj, hpe, hget⟩ := led_pwm_set_loop_get elems 0 es1 evs hloop j e hj
  obtain ⟨ce2, hce2, _hmz, he1, _⟩ := processElement_some hpe hidx
  rw [hce] at hce2
  injection hce2 with hce2
  subst hce2
  have hduty : e1.duty = toInt32 (computeDuty e.period ce.raw_value ce.max_value e.active_low) := by
    rw [he1]
    exact (apply_fields flt (0 + j)
      { e with duty := toInt32 (computeDuty e.period ce.raw_value ce.max_value e.active_low) }).1
  have hpU : e.period < U32 := lt_trans hp (by norm_num [I32TOP, U32])
  have hcle : computeDuty e.period ce.raw_value ce.max_value e.active_low ≤ e.period :=
    computeDuty_le_period e.active_low hm hv hpU hmU
  refine ⟨e1, by rw [hout]; exact hget, ?_, ?_⟩
  · rw [hduty, toInt32_small (lt_of_le_of_lt hcle hp)]
    exact Int.ofNat_nonneg _
  · rw [hduty, toInt32_small (lt_of_le_of_lt hcle hp)]
    exact_mod_cast hcle

theorem C2_duty_invariant_witness :
    ∃ e1, outW.elements.get? 0 = some e1 ∧ 0 ≤ e1.duty ∧ e1.duty ≤ (elemW.period : Int) :=
  C2_duty_invariant fId flt0 cdevW [elemW] 1 outW 0 elemW
    { name := "single", value := 255, raw_value := 128, max_value := 255 }
    (by decide) (by decide) (by decide) (by decide) (by decide) (by decide)
    (by decide) (by decide)

theorem C2_duty_invariant_cex :
    ((led_pwm_set fId flt0 cdevCE [elemCE] 0).map
        (fun o => (o.elements.get? 0).map led_element_pwm.duty) =
      some (some (-2147483648))) ∧
    ¬ ((0 : Int) ≤ -2147483648) :=
  ⟨by decide, by decide⟩

/-! ## C5: provider faults during a brightness-set -/

/-- C5 (amended): faults reported by the channel provider during
configure / enable / disable are discarded by the brightness-set path:
`__led_element_pwm_set` ignores the provider return codes and
`led_pwm_set` returns 0 (success) for every fault oracle whenever it
completes. -/
theorem C5_ret_always_zero (f : Nat → led_color_element → Nat) (flt : PwmFaults)
    (cdev : led_classdev_model) (elems : List led_element_pwm) (b : Nat) (out : SetOut)
    (hrun : led_pwm_set f flt cdev elems b = some out) : out.ret = 0 := by
  obtain ⟨es1, evs, _hloop, hout⟩ := led_pwm_set_inv hrun
  rw [hout]

/-- Provider fault oracle that reports EINVAL from every configure and
enable call. -/
def fltBad : PwmFaults := { configErr := fun _ _ _ => -EINVAL, enableErr := fun _ => -EINVAL }

/-- Output of `led_pwm_set fId fltBad cdevW [elemW] 1`: the provider
reported -EINVAL from both configure and enable, and the call still
returned 0. -/
def outWBad : SetOut :=
  { cdev := { cdevW with color_elements := [{ name := "single", value := 255, raw_value := 128, max_value := 255 }] },
    elements := [{ element_index := 0, pwm := { duty := 501, period := 1000, enabled := true },
                   active_low := 0, period := 1000, duty := 501 }],
    trace := [Ev.scale 1, Ev.config 0 501 1000 (-22), Ev.enable 0 (-22)],
    ret := 0 }

theorem C5_ret_always_zero_witness :
    (led_pwm_set fId fltBad cdevW [elemW] 1 = some outWBad) ∧ outWBad.ret = 0 :=
  ⟨by decide, C5_ret_always_zero fId fltBad cdevW [elemW] 1 outWBad (by decide)⟩

theorem C5_ret_always_zero_cex :
    ((led_pwm_set fId fltBad cdevW [elemW] 1).map SetOut.ret = some 0) ∧
    ((led_pwm_set fId fltBad cdevW [elemW] 1).map (fun o => o.trace.get? 1) =
      some (some (Ev.config 0 501 1000 (-EINVAL)))) :=
  ⟨by decide, by decide⟩

/-! ## C6: maxValue = 0 reaches the division unguarded -/

/-- A class device whose single color element has max_value = 0 (as
built by `led_pwm_add_single` from a configuration with
max_brightness = 0). -/
def cdevZ : led_classdev_model :=
  { name := "led0", default_trigger := "", brightness := 0, max_brightness := 0,
    color_elements := [{ name := "single", value := 0, raw_value := 0, max_value := 0 }] }

/-- The element of `cdevZ`. -/
def elemZ : led_element_pwm :=
  { element_index := 0, pwm := { duty := 0, period := 0, enabled := false },
    active_low := 0, period := 1000, duty := 0 }

/-- Construction environment in which channel acquisition and
registration always succeed. -/
def envZ : AddEnv :=
  { acquire := fun _ => Except.ok { args_period := 1000, init := { duty := 0, period := 0, enabled := false } },
    register := fun _ => 0, scaleF := fId, flt := flt0 }

/-- Platform configuration with max_brightness = 0 (the max-brightness
property left unset). -/
def cfgZ : led_pwm_cfg :=
  { name := "led0", default_trigger := "", active_low := 0, max_brightness := 0,
    pwm_period_ns := 0 }

/-- C6: the brightness-set path has no zero-divisor guard.  With
maxValue = 0 the run reaches `do_div(duty, max_value)` with a zero
divisor (the undefined-behaviour marker `none`), rather than failing
with a configuration fault; and the condition is reachable from probe:
a platform device with max_brightness = 0 hits it in the initial
brightness-set of `led_pwm_add_single`. -/
theorem C6_division_by_zero_reachable :
    (led_pwm_set fId flt0 cdevZ [elemZ] 0 = none) ∧
    (led_pwm_probe envZ [cfgZ] = none) :=
  ⟨by decide, by decide⟩

/-! ## Trace lemmas for the element loop -/

theorem apply_trace_cfg (flt : PwmFaults) (i : Nat) (e : led_element_pwm) :
    ((__led_element_pwm_set flt i e).2).filterMap evCfgTag = [i] := by
  by_cases hd : e.duty = 0 <;> simp [__led_element_pwm_set, hd, evCfgTag]

theorem apply_trace_tags (flt : PwmFaults) (i : Nat) (e : led_element_pwm) :
    ∀ ev ∈ (__led_element_pwm_set flt i e).2, evTag ev = some i := by
  intro ev hev
  by_cases hd : e.duty = 0 <;> simp [__led_element_pwm_set, hd] at hev <;>
    rcases hev with h | h <;> subst h <;> rfl

theorem evTag_not_scale {ev : Ev} {t : Nat} (h : evTag ev = some t) :
    isScale ev = false := by
  cases ev <;> simp [evTag, isScale] at *

theorem led_pwm_set_loop_length {flt : PwmFaults} {ces : List led_color_element} :
    ∀ (es : List led_element_pwm) (i : Nat) (es1 : List led_element_pwm) (evs : List Ev),
      led_pwm_set_loop flt ces es i = some (es1, evs) → es1.length = es.length := by
  intro es
  induction es with
  | nil =>
    intro i es1 evs h
    unfold led_pwm_set_loop at h
    simp only [Option.some.injEq, Prod.mk.injEq] at h
    rw [← h.1]
  | cons a rest ih =>
    intro i es1 evs h
    unfold led_pwm_set_loop at h
    cases hp : processElement flt ces i a with
    | none => rw [hp] at h; simp at h
    | some p1 =>
      obtain ⟨a1, evsA⟩ := p1
      rw [hp] at h
      cases hr : led_pwm_set_loop flt ces rest (i + 1) with
      | none => rw [hr] at h; simp at h
      | some p2 =>
        obtain ⟨rest1, evs2⟩ := p2
        rw [hr] at h
        simp only [Option.some.injEq, Prod.mk.injEq] at h
        rw [← h.1]
        simp [ih (i + 1) rest1 evs2 hr]

theorem led_pwm_set_loop_cfgTags {flt : PwmFaults} {ces : List led_color_element} :
    ∀ (es : List led_element_pwm) (i : Nat) (es1 : List led_element_pwm) (evs : List Ev),
      led_pwm_set_loop flt ces es i = some (es1, evs) →
      evs.filterMap evCfgTag =
        (List.enumFrom i es).filterMap
          (fun p => if p.2.element_index < 0 then none else some p.1) := by
  intro es
  induction es with
  | nil =>
    intro i es1 evs h
    unfold led_pwm_set_loop at h
    simp only [Option.some.injEq, Prod.mk.injEq] at h
    rw [← h.2]
    simp
  | cons a rest ih =>
    intro i es1 evs h
    unfold led_pwm_set_loop at h
    cases hp : processElement flt ces i a with
    | none => rw [hp] at h; simp at h
    | some p1 =>
      obtain ⟨a1, evsA⟩ := p1
      rw [hp] at h
      cases hr : led_pwm_set_loop flt ces rest (i + 1) with
      | none => rw [hr] at h; simp at h
      | some p2 =>
        obtain ⟨rest1, evs2⟩ := p2
        rw [hr] at h
        simp only [Option.some.injEq, Prod.mk.injEq] at h
        rw [← h.2, List.filterMap_append, ih (i + 1) rest1 evs2 hr]
        by_cases hidx : a.element_index < 0
        · have hskip := processElement_skip flt ces i hidx
          rw [hskip] at hp
          simp only [Option.some.injEq, Prod.mk.injEq] at hp
          rw [← hp.2]
          simp [List.enumFrom, hidx]
        · obtain ⟨ce, _hce, _hmz, _he1, hevsA⟩ := processElement_some hp hidx
          rw [hevsA, apply_trace_cfg]
          simp [List.enumFrom, hidx]

theorem led_pwm_set_loop_tags {flt : PwmFaults} {ces : List led_color_element} :
    ∀ (es : List led_element_pwm) (i : Nat) (es1 : List led_element_pwm) (evs : List Ev),
      led_pwm_set_loop flt ces es i = some (es1, evs) →
      ∀ ev ∈ evs, ∃ t, evTag ev = some t ∧ i ≤ t ∧
        ∃ e, es.get? (t - i) = some e ∧ ¬ e.element_index < 0 := by
  intro es
  induction es with
  | nil =>
    intro i es1 evs h ev hev
    unfold led_pwm_set_loop at h
    simp only [Option.some.injEq, Prod.mk.injEq] at h
    rw [← h.2] at hev
    simp at hev
  | cons a rest ih =>
    intro i es1 evs h ev hev
    unfold led_pwm_set_loop at h
    cases hp : processElement flt ces i a with
    | none => rw [hp] at h; simp at h
    | some p1 =>
      obtain ⟨a1, evsA⟩ := p1
      rw [hp] at h
      cases hr : led_pwm_set_loop flt ces rest (i + 1) with
      | none => rw [hr] at h; simp at h
      | some p2 =>
        obtain ⟨rest1, evs2⟩ := p2
        rw [hr] at h
        simp only [Option.some.injEq, Prod.mk.injEq] at h
        rw [← h.2] at hev
        rcases List.mem_append.mp hev with hA | h2
        · by_cases hidx : a.element_index < 0
          · have hskip := processElement_skip flt ces i hidx
            rw [hskip] at hp
            simp only [Option.some.injEq, Prod.mk.injEq] at hp
            rw [← hp.2] at hA
            simp at hA
          · obtain ⟨ce, _hce, _hmz, _he1, hevsA⟩ := processElement_some hp hidx
            rw [hevsA] at hA
            refine ⟨i, apply_trace_tags flt i _ ev hA, le_refl i, a, ?_, hidx⟩
            simp
        · obtain ⟨t, htag, hit, e, hget, hidx⟩ := ih (i + 1) rest1 evs2 hr ev h2
          refine ⟨t, htag, by omega, e, ?_, hidx⟩
          have hti : t - i = (t - (i + 1)) + 1 := by omega
          rw [hti]
          simpa using hget

/-! ## C4: frame of one brightness-set invocation -/

/-- C4: every completing brightness-set first calls the color-scaling
collaborator exactly once (the first trace event, before any configure),
writes its output back to the class device, and then computes-and-applies
a duty for exactly those elements whose element_index is non-negative,
each exactly once in construction (index) order and each from the raw
value and max value of its own color element; elements with a negative
element_index are skipped with their duty and channel state unchanged
and their channel untouched. -/
theorem C4_frame (f : Nat → led_color_element → Nat) (flt : PwmFaults)
    (cdev : led_classdev_model) (elems : List led_element_pwm) (b : Nat) (out : SetOut)
    (hrun : led_pwm_set f flt cdev elems b = some out) :
    (out.trace.head? = some (Ev.scale b)) ∧
    (out.trace.filter isScale = [Ev.scale b]) ∧
    (out.cdev.color_elements = led_scale_color_elements f b cdev.color_elements) ∧
    (out.elements.length = elems.length) ∧
    (out.trace.filterMap evCfgTag =
      (List.enumFrom 0 elems).filterMap
        (fun p => if p.2.element_index < 0 then none else some p.1)) ∧
    (∀ j e, elems.get? j = some e → e.element_index < 0 →
      out.elements.get? j = some e ∧ ∀ ev ∈ out.trace, evTag ev ≠ some j) ∧
    (∀ j e, elems.get? j = some e → ¬ e.element_index < 0 →
      ∃ ce, (led_scale_color_elements f b cdev.color_elements).get? e.element_index.toNat =
          some ce ∧
        out.elements.get? j = some (__led_element_pwm_set flt j
          { e with duty := toInt32 (computeDuty e.period ce.raw_value ce.max_value e.active_low) }).1) := by
  obtain ⟨es1, evs, hloop, hout⟩ := led_pwm_set_inv hrun
  subst hout
  refine ⟨rfl, ?_, rfl, ?_, ?_, ?_, ?_⟩
  · show List.filter isScale (Ev.scale b :: evs) = [Ev.scale b]
    rw [List.filter_cons]
    have hnil : evs.filter isScale = [] := by
      rw [List.filter_eq_nil_iff]
      intro ev hev
      obtain ⟨t, htag, _⟩ := led_pwm_set_loop_tags elems 0 es1 evs hloop ev hev
      simp [evTag_not_scale htag]
    rw [hnil]
    rfl
  · exact led_pwm_set_loop_length elems 0 es1 evs hloop
  · show List.filterMap evCfgTag (Ev.scale b :: evs) = _
    rw [List.filterMap_cons]
    have : evCfgTag (Ev.scale b) = none := rfl
    rw [this]
    exact led_pwm_set_loop_cfgTags elems 0 es1 evs hloop
  · intro j e hj hskip
    obtain ⟨e1, evsj, hpe, hget⟩ := led_pwm_set_loop_get elems 0 es1 evs hloop j e hj
    have hsk := processElement_skip flt (led_scale_color_elements f b cdev.color_elements) (0 + j) hskip
    rw [hsk] at hpe
    simp only [Option.some.injEq, Prod.mk.injEq] at hpe
    refine ⟨by show es1.get? j = some e; rw [hpe.1]; exact hget, ?_⟩
    intro ev hev htagj
    rcases List.mem_cons.mp hev with hsc | hev2
    · subst hsc; simp [evTag] at htagj
    · obtain ⟨t, htag, _hle, e2, hget2, hidx2⟩ :=
        led_pwm_set_loop_tags elems 0 es1 evs hloop ev hev2
      rw [htag] at htagj
      injection htagj with htagj
      subst htagj
      simp only [Nat.sub_zero] at hget2
      rw [hj] at hget2
      injection hget2 with hget2
      subst hget2
      exact hidx2 hskip
  · intro j e hj hidx
    obtain ⟨e1, evsj, hpe, hget⟩ := led_pwm_set_loop_get elems 0 es1 evs hloop j e hj
    obtain ⟨ce, hce, _hmz, he1, _hevs⟩ := processElement_some hpe hidx
    refine ⟨ce, hce, ?_⟩
    show es1.get? j = _
    rw [hget, he1]
    simp [Nat.zero_add]

/-- An element with a negative element_index (not addressed by any color
channel); it must be skipped by the brightness-set loop. -/
def elemSkip : led_element_pwm :=
  { element_index := -1, pwm := { duty := 3, period := 7, enabled := true },
    active_low := 0, period := 500, duty := 9 }

/-- Output of `led_pwm_set fId flt0 cdevW [elemSkip, elemW] 2`: the
skipped element is untouched, the addressed element is configured and
enabled. -/
def out4 : SetOut :=
  { cdev := { cdevW with color_elements := [{ name := "single", value := 255, raw_value := 128, max_value := 255 }] },
    elements := [elemSkip,
                 { element_index := 0, pwm := { duty := 501, period := 1000, enabled := true },
                   active_low := 0, period := 1000, duty := 501 }],
    trace := [Ev.scale 2, Ev.config 1 501 1000 0, Ev.enable 1 0],
    ret := 0 }

theorem C4_frame_witness :
    (out4.trace.head? = some (Ev.scale 2)) ∧ (out4.elements.get? 0 = some elemSkip) :=
  ⟨(C4_frame fId flt0 cdevW [elemSkip, elemW] 2 out4 (by decide)).1,
   ((C4_frame fId flt0 cdevW [elemSkip, elemW] 2 out4 (by decide)).2.2.2.2.2.1 0 elemSkip
      (by decide) (by decide)).1⟩

/-! ## Static fields survive a brightness-set -/

theorem led_pwm_set_static {f : Nat → led_color_element → Nat} {flt : PwmFaults}
    {cdev : led_classdev_model} {elems : List led_element_pwm} {b : Nat} {out : SetOut}
    (hrun : led_pwm_set f flt cdev elems b = some out) :
    ∀ j e, elems.get? j = some e →
      ∃ e1, out.elements.get? j = some e1 ∧ e1.element_index = e.element_index ∧
        e1.active_low = e.active_low ∧ e1.period = e.period := by
  intro j e hj
  obtain ⟨es1, evs, hloop, hout⟩ := led_pwm_set_inv hrun
  subst hout
  obtain ⟨e1, evsj, hpe, hget⟩ := led_pwm_set_loop_get elems 0 es1 evs hloop j e hj
  refine ⟨e1, hget, ?_⟩
  by_cases hidx : e.element_index < 0
  · have hsk := processElement_skip flt (led_scale_color_elements f b cdev.color_elements) (0 + j) hidx
    rw [hsk] at hpe
    simp only [Option.some.injEq, Prod.mk.injEq] at hpe
    rw [← hpe.1]
    exact ⟨rfl, rfl, rfl⟩
  · obtain ⟨ce, _hce, _hmz, he1, _⟩ := processElement_some hpe hidx
    rw [he1]
    have hf := apply_fields flt (0 + j)
      { e with duty := toInt32 (computeDuty e.period ce.raw_value ce.max_value e.active_low) }
    exact ⟨hf.2.2.1, hf.2.2.2, hf.2.1⟩

/-! ## The multi-mode element loop -/

theorem led_pwm_add_multi_loop_priv {i : Nat} :
    ∀ (descs : List MultiElemCfg) (j : Nat) (w : World) (r : Int) (w1 : World),
      led_pwm_add_multi_loop i descs j w = Sum.inl (r, w1) → w1.priv = w.priv := by
  intro descs
  induction descs with
  | nil => intro j w r w1 h; simp [led_pwm_add_multi_loop] at h
  | cons d rest ih =>
    intro j w r w1 h
    unfold led_pwm_add_multi_loop at h
    cases hs : d.setup with
    | error ret =>
      rw [hs] at h
      simp only [Sum.inl.injEq, Prod.mk.injEq] at h
      rw [← h.2]
    | ok ce =>
      rw [hs] at h
      cases ha : d.acquire with
      | error ret =>
        simp only [ha] at h
        by_cases hd : ret = -EPROBE_DEFER
        · rw [if_pos hd] at h
          simp only [Sum.inl.injEq, Prod.mk.injEq] at h
          rw [← h.2]
        · rw [if_neg hd] at h
          simp only [Sum.inl.injEq, Prod.mk.injEq] at h
          rw [← h.2]
      | ok ch =>
        simp only [ha] at h
        cases hr : led_pwm_add_multi_loop i rest (j + 1)
            { w with devres := w.devres ++ [(i, j)], trace := w.trace ++ [PEv.acquired i j] } with
        | inl p =>
          obtain ⟨r2, w2⟩ := p
          rw [hr] at h
          simp only [Sum.inl.injEq, Prod.mk.injEq] at h
          rw [← h.2]
          exact ih (j + 1)
            { w with devres := w.devres ++ [(i, j)], trace := w.trace ++ [PEv.acquired i j] }
            r2 w2 hr
        | inr p =>
          obtain ⟨ces, elems, w2⟩ := p
          rw [hr] at h
          simp at h

theorem led_pwm_add_multi_loop_priv2 {i : Nat} :
    ∀ (descs : List MultiElemCfg) (j : Nat) (w : World) (ces : List led_color_element)
      (elems : List led_element_pwm) (w2 : World),
      led_pwm_add_multi_loop i descs j w = Sum.inr (ces, elems, w2) → w2.priv = w.priv := by
  intro descs
  induction descs with
  | nil =>
    intro j w ces elems w2 h
    unfold led_pwm_add_multi_loop at h
    simp only [Sum.inr.injEq, Prod.mk.injEq] at h
    rw [← h.2.2]
  | cons d rest ih =>
    intro j w ces elems w2 h
    unfold led_pwm_add_multi_loop at h
    cases hs : d.setup with
    | error ret => rw [hs] at h; simp at h
    | ok ce =>
      rw [hs] at h
      cases ha : d.acquire with
      | error ret =>
        simp only [ha] at h
        by_cases hd : ret = -EPROBE_DEFER
        · rw [if_pos hd] at h; simp at h
        · rw [if_neg hd] at h; simp at h
      | ok ch =>
        simp only [ha] at h
        cases hr : led_pwm_add_multi_loop i rest (j + 1)
            { w with devres := w.devres ++ [(i, j)], trace := w.trace ++ [PEv.acquired i j] } with
        | inl p => rw [hr] at h; simp at h
        | inr p =>
          obtain ⟨ces2, elems2, w3⟩ := p
          rw [hr] at h
          simp only [Sum.inr.injEq, Prod.mk.injEq] at h
          rw [← h.2.2]
          exact ih (j + 1)
            { w with devres := w.devres ++ [(i, j)], trace := w.trace ++ [PEv.acquired i j] }
            ces2 elems2 w3 hr

theorem led_pwm_add_multi_loop_elems {i : Nat} :
    ∀ (descs : List MultiElemCfg) (j0 : Nat) (w : World) (ces : List led_color_element)
      (elems : List led_element_pwm) (w2 : World),
      led_pwm_add_multi_loop i descs j0 w = Sum.inr (ces, elems, w2) →
      ∀ (j : Nat) (d : MultiElemCfg), descs.get? j = some d →
        ∃ ch, d.acquire = Except.ok ch ∧
          elems.get? j = some
            { element_index := ((j0 + j : Nat) : Int), pwm := ch.init,
              active_low := if d.active_low then 1 else 0,
              period := ch.args_period, duty := 0 } := by
  intro descs
  induction descs with
  | nil => intro j0 w ces elems w2 h j d hj; simp at hj
  | cons d0 rest ih =>
    intro j0 w ces elems w2 h j d hj
    unfold led_pwm_add_multi_loop at h
    cases hs : d0.setup with
    | error ret => rw [hs] at h; simp at h
    | ok ce =>
      rw [hs] at h
      cases ha : d0.acquire with
      | error ret =>
        simp only [ha] at h
        by_cases hd : ret = -EPROBE_DEFER
        · rw [if_pos hd] at h; simp at h
        · rw [if_neg hd] at h; simp at h
      | ok ch0 =>
        simp only [ha] at h
        cases hr : led_pwm_add_multi_loop i rest (j0 + 1)
            { w with devres := w.devres ++ [(i, j0)], trace := w.trace ++ [PEv.acquired i j0] } with
        | inl p => rw [hr] at h; simp at h
        | inr p =>
          obtain ⟨ces2, elems2, w3⟩ := p
          rw [hr] at h
          simp only [Sum.inr.injEq, Prod.mk.injEq] at h
          obtain ⟨_hces, helems, _hw⟩ := h
          cases j with
          | zero =>
            simp only [List.get?] at hj
            injection hj with hj
            subst hj
            refine ⟨ch0, ha, ?_⟩
            rw [← helems]
            simp
          | succ n =>
            simp only [List.get?] at hj
            obtain ⟨ch, hach, hget⟩ := ih (j0 + 1) _ ces2 elems2 w3 hr n d hj
            refine ⟨ch, hach, ?_⟩
            rw [← helems]
            have hn : j0 + (n + 1) = (j0 + 1) + n := by omega
            rw [hn]
            simpa using hget

/-! ## C7: where the element period comes from -/

/-- C7: in single-mode construction the committed element period is the
hardware-reported period when that is non-zero and the caller-supplied
fallback period otherwise (lines 170-174); in multi-mode construction
every committed element period is purely the hardware-reported period of
its own channel, with no fallback (line 257). -/
theorem C7_period_source :
    (∀ (env : AddEnv) (i : Nat) (cfg : led_pwm_cfg) (w : World) (ch : PwmChan)
        (ret : Int) (w1 : World),
      env.acquire i = Except.ok ch → env.register i = 0 →
      led_pwm_add_single env i cfg w = some (ret, w1) →
      ∃ ld, w1.priv.get? w.priv.length = some ld ∧
        ∃ e, ld.elements.get? 0 = some e ∧
          e.period = (if ch.args_period ≠ 0 then ch.args_period else cfg.pwm_period_ns)) ∧
    (∀ (env : AddEnv) (i : Nat) (cfg : led_pwm_cfg) (descs : List MultiElemCfg)
        (w : World) (ret : Int) (w1 : World) (j : Nat) (d : MultiElemCfg) (ch : PwmChan),
      led_pwm_add_multi env i cfg descs w = some (ret, w1) →
      w1.priv.length = w.priv.length + 1 →
      descs.get? j = some d → d.acquire = Except.ok ch →
      ∃ ld, w1.priv.get? w.priv.length = some ld ∧
        ∃ e, ld.elements.get? j = some e ∧ e.period = ch.args_period) := by
  constructor
  · intro env i cfg w ch ret w1 hacq hreg hadd
    unfold led_pwm_add_single at hadd
    simp only [hacq, hreg, if_true] at hadd
    cases hset : led_pwm_set env.scaleF env.flt
        { name := cfg.name, default_trigger := cfg.default_trigger,
          brightness := 0, max_brightness := cfg.max_brightness,
          color_elements := [{ name := "single", value := cfg.max_brightness, raw_value := 0,
                               max_value := cfg.max_brightness }] }
        [{ element_index := 0, pwm := ch.init, active_low := cfg.active_low,
           period := if ch.args_period = 0 ∧ 0 < cfg.pwm_period_ns then cfg.pwm_period_ns
                     else ch.args_period, duty := 0 }] 0 with
    | none => rw [hset] at hadd; simp at hadd
    | some out =>
      rw [hset] at hadd
      simp only [Option.some.injEq, Prod.mk.injEq] at hadd
      obtain ⟨_hret, hw1⟩ := hadd
      obtain ⟨e1, hget, _hidx, _hal, hper⟩ := led_pwm_set_static hset 0
        { element_index := 0, pwm := ch.init, active_low := cfg.active_low,
          period := if ch.args_period = 0 ∧ 0 < cfg.pwm_period_ns then cfg.pwm_period_ns
                    else ch.args_period, duty := 0 } rfl
      refine ⟨{ idx := i, cdev := out.cdev, elements := out.elements }, ?_, e1, hget, ?_⟩
      · rw [← hw1]
        exact List.get?_concat_length w.priv _
      · rw [hper]
        by_cases h0 : ch.args_period = 0 <;> by_cases hf : 0 < cfg.pwm_period_ns <;>
          simp [h0, hf] <;> omega
  · intro env i cfg descs w ret w1 j d ch hadd hlen hj hach
    unfold led_pwm_add_multi at hadd
    cases hloop : led_pwm_add_multi_loop i descs 0 w with
    | inl p =>
      obtain ⟨r2, w2⟩ := p
      rw [hloop] at hadd
      simp only [Option.some.injEq, Prod.mk.injEq] at hadd
      have hpriv := led_pwm_add_multi_loop_priv descs 0 w r2 w2 hloop
      rw [← hadd.2, hpriv] at hlen
      omega
    | inr p =>
      obtain ⟨ces, elems, w2⟩ := p
      rw [hloop] at hadd
      have hpriv := led_pwm_add_multi_loop_priv2 descs 0 w ces elems w2 hloop
      by_cases hreg : env.register i = 0
      · simp only [hreg, if_true] at hadd
        cases hset : led_pwm_set env.scaleF env.flt
            { name := cfg.name, default_trigger := cfg.default_trigger,
              brightness := 0, max_brightness := cfg.max_brightness,
              color_elements := ces } elems 0 with
        | none => rw [hset] at hadd; simp at hadd
        | some out =>
          rw [hset] at hadd
          simp only [Option.some.injEq, Prod.mk.injEq] at hadd
          obtain ⟨_hret, hw1⟩ := hadd
          obtain ⟨ch2, hach2, hget⟩ :=
            led_pwm_add_multi_loop_elems descs 0 w ces elems w2 hloop j d hj
          rw [hach] at hach2
          injection hach2 with hach2
          subst hach2
          obtain ⟨e1, hget1, _hidx, _hal, hper⟩ := led_pwm_set_static hset j _ hget
          refine ⟨{ idx := i, cdev := out.cdev, elements := out.elements }, ?_, e1, hget1, hper⟩
          rw [← hw1]
          show (w2.priv ++ [({ idx := i, cdev := out.cdev, elements := out.elements } : LedData)]).get?
            w.priv.length = _
          rw [← hpriv]
          exact List.get?_concat_length w2.priv _
      · simp only [if_neg hreg] at hadd
        simp only [Option.some.injEq, Prod.mk.injEq] at hadd
        rw [← hadd.2] at hlen
        simp only [hpriv] at hlen
        omega

/-- Single-mode configuration used by witnesses: hardware period 1000,
fallback 5000. -/
def cfgW : led_pwm_cfg :=
  { name := "one", default_trigger := "", active_low := 0, max_brightness := 255,
    pwm_period_ns := 5000 }

/-- The channel `envZ.acquire` hands out. -/
def chW : PwmChan :=
  { args_period := 1000, init := { duty := 0, period := 0, enabled := false } }

/-- World after `led_pwm_add_single envZ 0 cfgW emptyWorld`. -/
def w7 : World :=
  { priv := [{ idx := 0,
               cdev := { name := "one", default_trigger := "", brightness := 0,
                         max_brightness := 255,
                         color_elements := [{ name := "single", value := 255, raw_value := 0,
                                              max_value := 255 }] },
               elements := [{ element_index := 0,
                              pwm := { duty := 0, period := 1000, enabled := false },
                              active_low := 0, period := 1000, duty := 0 }] }],
    registered := [0], devres := [(0, 0)],
    trace := [PEv.acquired 0 0, PEv.registered 0] }

/-- Multi-mode configuration used by witnesses: fallback 7777 (must be
ignored). -/
def cfgM : led_pwm_cfg :=
  { name := "rgb", default_trigger := "", active_low := 0, max_brightness := 255,
    pwm_period_ns := 7777 }

/-- One multi-mode element whose channel reports hardware period 0. -/
def descM : MultiElemCfg :=
  { active_low := false,
    setup := Except.ok { name := "red", value := 0, raw_value := 0, max_value := 255 },
    acquire := Except.ok { args_period := 0, init := { duty := 0, period := 0, enabled := false } } }

/-- The channel of `descM`. -/
def chM : PwmChan :=
  { args_period := 0, init := { duty := 0, period := 0, enabled := false } }

/-- World after `led_pwm_add_multi envZ 1 cfgM [descM] emptyWorld`. -/
def w7m : World :=
  { priv := [{ idx := 1,
               cdev := { name := "rgb", default_trigger := "", brightness := 0,
                         max_brightness := 255,
                         color_elements := [{ name := "red", value := 0, raw_value := 0,
                                              max_value := 255 }] },
               elements := [{ element_index := 0,
                              pwm := { duty := 0, period := 0, enabled := false },
                              active_low := 0, period := 0, duty := 0 }] }],
    registered := [1], devres := [(1, 0)],
    trace := [PEv.acquired 1 0, PEv.registered 1] }

theorem C7_period_source_witness :
    (∃ ld, w7.priv.get? 0 = some ld ∧
      ∃ e, ld.elements.get? 0 = some e ∧
        e.period = (if chW.args_period ≠ 0 then chW.args_period else cfgW.pwm_period_ns)) ∧
    (∃ ld, w7m.priv.get? 0 = some ld ∧
      ∃ e, ld.elements.get? 0 = some e ∧ e.period = chM.args_period) :=
  ⟨C7_period_source.1 envZ 0 cfgW emptyWorld chW 0 w7 rfl rfl (by decide),
   C7_period_source.2 envZ 1 cfgM [descM] emptyWorld 0 w7m 0 descM chM (by decide)
     (by decide) rfl rfl⟩

/-! ## Totality of led_pwm_set on well-formed devices -/

theorem led_pwm_set_loop_total (flt : PwmFaults) (ces : List led_color_element) :
    ∀ (es : List led_element_pwm) (i : Nat),
      (∀ e ∈ es, ¬ e.element_index < 0 →
        ∃ ce, ces.get? e.element_index.toNat = some ce ∧ ce.max_value ≠ 0) →
      ∃ r, led_pwm_set_loop flt ces es i = some r := by
  intro es
  induction es with
  | nil => intro i _h; exact ⟨([], []), rfl⟩
  | cons a rest ih =>
    intro i h
    have hhead : ∃ p, processElement flt ces i a = some p := by
      by_cases hidx : a.element_index < 0
      · exact ⟨(a, []), processElement_skip flt ces i hidx⟩
      · obtain ⟨ce, hce, hmz⟩ := h a (List.mem_cons_self a rest) hidx
        refine ⟨__led_element_pwm_set flt i
          { a with duty := toInt32 (computeDuty a.period ce.raw_value ce.max_value a.active_low) }, ?_⟩
        unfold processElement
        rw [if_neg hidx]
        simp only [hce, if_neg hmz]
    obtain ⟨⟨a1, evsA⟩, hp⟩ := hhead
    obtain ⟨⟨rest1, evs2⟩, hr⟩ := ih (i + 1) (fun e he => h e (List.mem_cons_of_mem a he))
    refine ⟨(a1 :: rest1, evsA ++ evs2), ?_⟩
    unfold led_pwm_set_loop
    rw [hp, hr]

theorem led_pwm_set_total (f : Nat → led_color_element → Nat) (flt : PwmFaults)
    (cdev : led_classdev_model) (elems : List led_element_pwm) (b : Nat)
    (h : ∀ e ∈ elems, ¬ e.element_index < 0 →
      ∃ ce, (led_scale_color_elements f b cdev.color_elements).get? e.element_index.toNat =
          some ce ∧ ce.max_value ≠ 0) :
    ∃ out, led_pwm_set f flt cdev elems b = some out := by
  obtain ⟨⟨es1, evs⟩, hl⟩ := led_pwm_set_loop_total flt
    (led_scale_color_elements f b cdev.color_elements) elems 0 h
  exact ⟨_, by unfold led_pwm_set; rw [hl]⟩

/-! ## led_pwm_add_single on the success and deferred paths -/

theorem led_pwm_add_single_ok (env : AddEnv) (i : Nat) (cfg : led_pwm_cfg) (w : World)
    (ch : PwmChan) (hacq : env.acquire i = Except.ok ch) (hreg : env.register i = 0)
    (hmb : cfg.max_brightness ≠ 0) :
    ∃ w1, led_pwm_add_single env i cfg w = some (0, w1) ∧
      w1.registered = w.registered ++ [i] ∧
      w1.devres = w.devres ++ [(i, 0)] ∧
      w1.trace = w.trace ++ [PEv.acquired i 0, PEv.registered i] ∧
      ∃ ld, w1.priv = w.priv ++ [ld] ∧ ld.idx = i := by
  have htot := led_pwm_set_total env.scaleF env.flt
    { name := cfg.name, default_trigger := cfg.default_trigger,
      brightness := 0, max_brightness := cfg.max_brightness,
      color_elements := [{ name := "single", value := cfg.max_brightness, raw_value := 0,
                           max_value := cfg.max_brightness }] }
    [{ element_index := 0, pwm := ch.init, active_low := cfg.active_low,
       period := if ch.args_period = 0 ∧ 0 < cfg.pwm_period_ns then cfg.pwm_period_ns
                 else ch.args_period, duty := 0 }] 0
    (by
      intro e he _hidx
      simp only [List.mem_singleton] at he
      subst he
      exact ⟨_, rfl, hmb⟩)
  obtain ⟨out, hset⟩ := htot
  refine ⟨{ w with
      priv := w.priv ++ [{ idx := i, cdev := out.cdev, elements := out.elements }],
      registered := w.registered ++ [i],
      devres := w.devres ++ [(i, 0)],
      trace := w.trace ++ [PEv.acquired i 0] ++ [PEv.registered i] },
    ?_, rfl, rfl, by simp, ⟨_, rfl, rfl⟩⟩
  unfold led_pwm_add_single
  simp only [hacq, hreg, if_true]
  rw [hset]

theorem led_pwm_add_single_defer (env : AddEnv) (i : Nat) (cfg : led_pwm_cfg) (w : World)
    (hacq : env.acquire i = Except.error (-EPROBE_DEFER)) :
    led_pwm_add_single env i cfg w = some (-EPROBE_DEFER, w) := by
  unfold led_pwm_add_single
  simp only [hacq, if_true]

/-! ## The probe loop over an all-successful prefix -/

/-- Construction events of `n` successful single-LED additions starting
at LED index `i`. -/
def okTrace (i n : Nat) : List PEv :=
  ((List.range' i n).map (fun t => [PEv.acquired t 0, PEv.registered t])).flatten

theorem led_pwm_probe_loop_ok (env : AddEnv) :
    ∀ (cs : List led_pwm_cfg) (i : Nat) (w : World),
      (∀ j c, cs.get? j = some c →
        (∃ ch, env.acquire (i + j) = Except.ok ch) ∧ env.register (i + j) = 0 ∧
          c.max_brightness ≠ 0) →
      ∃ w1, led_pwm_probe_loop env cs i w = some (0, w1) ∧
        w1.registered = w.registered ++ List.range' i cs.length ∧
        w1.devres = w.devres ++ (List.range' i cs.length).map (fun t => (t, 0)) ∧
        w1.trace = w.trace ++ okTrace i cs.length ∧
        ∃ lds, w1.priv = w.priv ++ lds ∧ lds.map LedData.idx = List.range' i cs.length := by
  intro cs
  induction cs with
  | nil =>
    intro i w _h
    exact ⟨w, rfl, by simp, by simp, by simp [okTrace], ⟨[], by simp, by simp⟩⟩
  | cons c rest ih =>
    intro i w h
    obtain ⟨⟨ch, hacq⟩, hreg, hmb⟩ := h 0 c rfl
    obtain ⟨w1, hadd, hr1, hd1, ht1, ld, hp1, hidx1⟩ :=
      led_pwm_add_single_ok env i c w ch hacq hreg hmb
    obtain ⟨w2, hloop2, hr2, hd2, ht2, lds, hp2, hidx2⟩ := ih (i + 1) w1
      (fun j cj hj => by
        have hh := h (j + 1) cj hj
        have harith : i + (j + 1) = i + 1 + j := by omega
        rw [harith] at hh
        exact hh)
    refine ⟨w2, ?_, ?_, ?_, ?_, ?_⟩
    · unfold led_pwm_probe_loop
      simp only [hadd, if_true]
      exact hloop2
    · rw [hr2, hr1, List.length_cons, List.range'_succ]
      simp
    · rw [hd2, hd1, List.length_cons, List.range'_succ]
      simp
    · rw [ht2, ht1, List.length_cons]
      simp [okTrace, List.range'_succ]
    · refine ⟨ld :: lds, ?_, ?_⟩
      · rw [hp2, hp1]
        simp
      · rw [List.length_cons, List.range'_succ]
        simp [hidx1, hidx2]

theorem led_pwm_probe_loop_append (env : AddEnv) :
    ∀ (as bs : List led_pwm_cfg) (i : Nat) (w w1 : World),
      led_pwm_probe_loop env as i w = some (0, w1) →
      led_pwm_probe_loop env (as ++ bs) i w =
        led_pwm_probe_loop env bs (i + as.length) w1 := by
  intro as
  induction as with
  | nil =>
    intro bs i w w1 h
    unfold led_pwm_probe_loop at h
    simp only [Option.some.injEq, Prod.mk.injEq] at h
    rw [← h.2]
    simp
  | cons a rest ih =>
    intro bs i w w1 h
    unfold led_pwm_probe_loop at h
    cases hadd : led_pwm_add_single env i a w with
    | none => rw [hadd] at h; simp at h
    | some p =>
      obtain ⟨ret, w2⟩ := p
      simp only [hadd] at h
      by_cases hret : ret = 0
      · subst hret
        rw [if_pos rfl] at h
        have hstep : led_pwm_probe_loop env ((a :: rest) ++ bs) i w =
            led_pwm_probe_loop env (rest ++ bs) (i + 1) w2 := by
          show led_pwm_probe_loop env (a :: (rest ++ bs)) i w = _
          conv_lhs => unfold led_pwm_probe_loop
          simp only [hadd, if_true]
        rw [hstep, ih bs (i + 1) w2 w1 h]
        have harith : i + 1 + rest.length = i + (a :: rest).length := by
          simp only [List.length_cons]; omega
        rw [harith]
      · rw [if_neg hret] at h
        simp only [Option.some.injEq, Prod.mk.injEq] at h
        exact absurd h.1 hret

/-! ## Cleanup unregisters everything, last constructed first -/

theorem led_pwm_cleanup_fold :
    ∀ (lds : List LedData) (acc : World) (pre : List Nat),
      acc.registered = pre ++ lds.map LedData.idx →
      (pre ++ lds.map LedData.idx).Nodup →
      ((lds.reverse.foldl
          (fun acc2 ld =>
            { acc2 with registered := acc2.registered.erase ld.idx,
                        trace := acc2.trace ++ [PEv.unregistered ld.idx] }) acc).registered =
        pre ∧
       (lds.reverse.foldl
          (fun acc2 ld =>
            { acc2 with registered := acc2.registered.erase ld.idx,
                        trace := acc2.trace ++ [PEv.unregistered ld.idx] }) acc).devres =
        acc.devres ∧
       (lds.reverse.foldl
          (fun acc2 ld =>
            { acc2 with registered := acc2.registered.erase ld.idx,
                        trace := acc2.trace ++ [PEv.unregistered ld.idx] }) acc).priv =
        acc.priv ∧
       (lds.reverse.foldl
          (fun acc2 ld =>
            { acc2 with registered := acc2.registered.erase ld.idx,
                        trace := acc2.trace ++ [PEv.unregistered ld.idx] }) acc).trace =
        acc.trace ++ (lds.map LedData.idx).reverse.map PEv.unregistered) := by
  intro lds
  induction lds with
  | nil =>
    intro acc pre h _hnd
    simp only [List.map_nil, List.append_nil] at h
    exact ⟨by simp [h], rfl, rfl, by simp⟩
  | cons a rest ih =>
    intro acc pre h hnd
    have h2 : acc.registered = (pre ++ [a.idx]) ++ rest.map LedData.idx := by
      rw [h]; simp
    have hnd2 : ((pre ++ [a.idx]) ++ rest.map LedData.idx).Nodup := by
      simpa using hnd
    obtain ⟨hr, hd, hp, ht⟩ := ih acc (pre ++ [a.idx]) h2 hnd2
    have hnotin : a.idx ∉ pre := by
      rw [List.nodup_append] at hnd
      intro hmem
      exact hnd.2.2 hmem (List.mem_cons_self a.idx (rest.map LedData.idx))
    rw [List.reverse_cons, List.foldl_append]
    refine ⟨?_, ?_, ?_, ?_⟩
    · simp only [List.foldl_cons, List.foldl_nil]
      rw [hr, List.erase_append_right _ hnotin, List.erase_cons_head, List.append_nil]
    · simp only [List.foldl_cons, List.foldl_nil]
      exact hd
    · simp only [List.foldl_cons, List.foldl_nil]
      exact hp
    · simp only [List.foldl_cons, List.foldl_nil]
      rw [ht]
      simp

theorem led_pwm_cleanup_spec (w : World)
    (hreg : w.registered = w.priv.map LedData.idx)
    (hnd : (w.priv.map LedData.idx).Nodup) :
    (led_pwm_cleanup w).registered = [] ∧ (led_pwm_cleanup w).devres = w.devres ∧
    (led_pwm_cleanup w).priv = [] ∧
    (led_pwm_cleanup w).trace =
      w.trace ++ (w.priv.map LedData.idx).reverse.map PEv.unregistered := by
  unfold led_pwm_cleanup
  have h := led_pwm_cleanup_fold w.priv { w with priv := [] } []
    (by simpa using hreg) (by simpa using hnd)
  exact ⟨h.1, h.2.1, h.2.2.1, h.2.2.2⟩

/-! ## C8: deferred channel availability during multi-device probe -/

/-- C8: for every platform-data probe in which the first `k` LEDs
construct and register successfully and acquiring the PWM channel of LED
`k` fails with -EPROBE_DEFER: construction stops at LED `k` (the trace
holds acquisitions and registrations for LEDs 0..k-1 only), every LED
registered before the failure is unregistered before probe returns (in
reverse order, leaving none registered), all device-managed channels are
released, the returned error is -EPROBE_DEFER itself, and no
channel-acquisition error is logged. -/
theorem C8_probe_defer (env : AddEnv) (cfgs : List led_pwm_cfg) (k : Nat)
    (ck : led_pwm_cfg) (hk : cfgs.get? k = some ck)
    (hpre : ∀ j c, j < k → cfgs.get? j = some c →
      (∃ ch, env.acquire j = Except.ok ch) ∧ env.register j = 0 ∧ c.max_brightness ≠ 0)
    (hdef : env.acquire k = Except.error (-EPROBE_DEFER)) :
    ∃ w1, led_pwm_probe_hosted env cfgs = some (-EPROBE_DEFER, w1) ∧
      w1.registered = [] ∧ w1.devres = [] ∧ w1.priv = [] ∧
      w1.trace = okTrace 0 k ++ (List.range' 0 k).reverse.map PEv.unregistered ∧
      (∀ j, PEv.errlogPwm j ∉ w1.trace) := by
  have hklen : k < cfgs.length := by
    by_contra hc
    push_neg at hc
    rw [List.get?_eq_none.mpr hc] at hk
    cases hk
  have hne : (-EPROBE_DEFER : Int) ≠ 0 := by norm_num [EPROBE_DEFER]
  have htk : (cfgs.take k).length = k := by
    rw [List.length_take]; omega
  obtain ⟨wk, hloopPre, hrPre, hdPre, htPre, lds, hpPre, hidxPre⟩ :=
    led_pwm_probe_loop_ok env (cfgs.take k) 0 emptyWorld
      (fun j c hj => by
        have hjlen : j < (cfgs.take k).length := by
          by_contra hc
          push_neg at hc
          rw [List.get?_eq_none.mpr hc] at hj
          cases hj
        have hjk : j < k := by omega
        have hcf : cfgs.get? j = some c := by
          rw [← List.get?_take hjk]
          exact hj
        simpa using hpre j c hjk hcf)
  rw [htk] at hrPre hdPre htPre hidxPre
  have hsplit : cfgs = cfgs.take k ++ (ck :: cfgs.drop (k + 1)) := by
    rw [List.get?_eq_getElem?] at hk
    rw [List.getElem?_eq_getElem hklen] at hk
    injection hk with hk
    conv_lhs => rw [← List.take_append_drop k cfgs]
    rw [List.drop_eq_getElem_cons hklen, hk]
  have hstep : led_pwm_probe_loop env (ck :: cfgs.drop (k + 1)) k wk =
      some (-EPROBE_DEFER, wk) := by
    unfold led_pwm_probe_loop
    simp only [led_pwm_add_single_defer env k ck wk hdef]
    rw [if_neg hne]
  have hlooptotal : led_pwm_probe_loop env cfgs 0 emptyWorld = some (-EPROBE_DEFER, wk) := by
    conv_lhs => rw [hsplit]
    rw [led_pwm_probe_loop_append env (cfgs.take k) (ck :: cfgs.drop (k + 1)) 0
      emptyWorld wk hloopPre]
    rw [htk]
    simpa using hstep
  have hprobe : led_pwm_probe env cfgs = some (-EPROBE_DEFER, led_pwm_cleanup wk) := by
    unfold led_pwm_probe
    rw [if_neg (by omega : ¬ cfgs.length = 0)]
    simp only [hlooptotal]
    rw [if_neg hne]
  have hwkpriv : wk.priv.map LedData.idx = List.range' 0 k := by
    rw [hpPre]
    simpa using hidxPre
  have hwkreg : wk.registered = wk.priv.map LedData.idx := by
    rw [hwkpriv, hrPre]
    simp [emptyWorld]
  obtain ⟨hcr, hcd, hcp, hct⟩ := led_pwm_cleanup_spec wk hwkreg
    (by rw [hwkpriv]; exact List.nodup_range' 0 k)
  have htrace : (led_pwm_cleanup wk).trace =
      okTrace 0 k ++ (List.range' 0 k).reverse.map PEv.unregistered := by
    rw [hct, htPre, hwkpriv]
    simp [emptyWorld]
  refine ⟨{ led_pwm_cleanup wk with devres := [] }, ?_, hcr, rfl, hcp, htrace, ?_⟩
  · unfold led_pwm_probe_hosted
    simp only [hprobe]
    rw [if_neg hne]
  · intro j
    rw [show ({ led_pwm_cleanup wk with devres := [] } : World).trace =
      (led_pwm_cleanup wk).trace from rfl, htrace]
    intro hmem
    rcases List.mem_append.mp hmem with h1 | h2
    · simp only [okTrace, List.mem_flatten, List.mem_map] at h1
      obtain ⟨piece, ⟨t, _ht, hpiece⟩, hin⟩ := h1
      rw [← hpiece] at hin
      simp at hin
    · simp only [List.mem_map] at h2
      obtain ⟨t, _ht, habs⟩ := h2
      cases habs

/-- Probe environment for the C8 witness: LED 0 gets a channel, every
later acquisition reports deferred availability. -/
def env8 : AddEnv :=
  { acquire := fun i => match i with
      | 0 => Except.ok chW
      | _ => Except.error (-EPROBE_DEFER),
    register := fun _ => 0, scaleF := fId, flt := flt0 }

/-- Three configured LEDs for the C8 witness. -/
def cfgs8 : List led_pwm_cfg := [cfgW, cfgW, cfgW]

theorem C8_probe_defer_witness :
    ∃ w1, led_pwm_probe_hosted env8 cfgs8 = some (-EPROBE_DEFER, w1) ∧
      w1.registered = [] ∧ w1.devres = [] ∧ w1.priv = [] ∧
      w1.trace = okTrace 0 1 ++ (List.range' 0 1).reverse.map PEv.unregistered ∧
      (∀ j, PEv.errlogPwm j ∉ w1.trace) :=
  C8_probe_defer env8 cfgs8 1 cfgW rfl
    (fun j c hj hc => by
      interval_cases j
      simp only [cfgs8, List.get?] at hc
      injection hc with hc
      subst hc
      exact ⟨⟨chW, rfl⟩, rfl, by decide⟩)
    rfl
